import Mathlib

/-!
# Verification of the `nba_stats` players module (`nba_stats/players.py`)

Shallow embedding of the data-loading / cleaning / join pipeline of the
`Statistics` class.  Text is modelled as `String` / `List Char`; tabular data
as lists of records with `Option`-valued cells (`none` models a pandas `NaN`);
the two remote-fetch outcomes as an explicit sum.  All definitions are
executable and translated directly from the Python source.
-/

/-! ## Text utilities

`re.sub(r'^\d+,+$', '', text, flags=re.MULTILINE)` rewrites every line (the
maximal `\n`-free segments of the text, including the segments at the start
and end) that consists of one or more digits followed by one or more commas
into the empty line.  We model the line structure by an executable splitter on
a separator character, used both for `'\n'` (lines) and `','` (CSV fields). -/

/-- Split a character list at every occurrence of `sep`.  The separators are
dropped; the result always has one more entry than there are separators
(`splitOnChar sep [] = [[]]`), exactly like the line/field structure of a
text. -/
def splitOnChar (sep : Char) : List Char → List (List Char)
  | [] => [[]]
  | c :: cs =>
    if c = sep then [] :: splitOnChar sep cs
    else
      match splitOnChar sep cs with
      | [] => [[c]]
      | l :: ls => (c :: l) :: ls

/-- Join segments with a separator character (inverse of `splitOnChar`). -/
def joinOnChar (sep : Char) : List (List Char) → List Char
  | [] => []
  | [l] => l
  | l :: ls => l ++ sep :: joinOnChar sep ls

/-! ## The Text Sanitizer: `blank_filter`

`blank_filter(text)` is `re.sub(r'^\d+,+$', '', text, flags=re.MULTILINE)`.
With `re.MULTILINE`, `^`/`$` anchor at line boundaries; since the pattern
contains no newline and is anchored on both sides, the substitution exactly
rewrites every matching line to the empty line and leaves all other lines
(and every newline character) unchanged. -/

/-- A line matches the artifact pattern `\d+,+`: a nonempty maximal digit
prefix followed by a nonempty run of commas and nothing else.  (Python's `\d`
also admits non-ASCII decimal digits; the files at hand are ASCII, and no
claim depends on the distinction.) -/
def is_artifact_line (l : List Char) : Bool :=
  let ds := l.takeWhile Char.isDigit
  let rest := l.dropWhile Char.isDigit
  !ds.isEmpty && !rest.isEmpty && rest.all (fun c => c = ',')

/-- The per-line action of the substitution: an artifact line becomes the
empty line, every other line is kept. -/
def artifact_blank (l : List Char) : List Char :=
  if is_artifact_line l then [] else l

/-- `blank_filter` of `Statistics.load_data`: remove (blank out) the artifact
blank-data lines of the raw text. -/
def blank_filter (text : String) : String :=
  String.mk (joinOnChar '\n' ((splitOnChar '\n' text.data).map artifact_blank))

/-! ## Data model

A pandas cell is `Option`-valued: `none` models `NaN`/missing.  The row types
carry the columns of `players_types` and `stats_types` in source order.
Field names starting with a digit in the source (`3_point_average_attempts`,
`2_pointers`, ...) are spelled out (`three_`, `two_`) since Lean field names
cannot start with a digit. -/

/-- A Hall-of-Fame entry: columns `name`, `category` of the fame table. -/
structure Inductee where
  name : String
  category : String
deriving DecidableEq

/-- A row of the player biography dataset (`players_types` schema).  `born`
is parsed as a date and used as the row index (`index_col=5`); dates are kept
as ISO strings, matching `year_parser`'s output format. -/
structure PlayerRow where
  idx : Option Int
  player : Option String
  height : Option Float
  weight : Option Float
  collage : Option String
  born : Option String
  birth_city : Option String
  birth_state : Option String

/-- A row of the season statistics dataset (`stats_types` schema).  `season`
is parsed as a date and used as the row index (`index_col=1`). -/
structure StatsRow where
  idx : Option Int
  season : Option String
  player : Option String
  position : Option String
  age : Option Float
  team : Option String
  games : Option Int
  games_started : Option Float
  minutes_played : Option Float
  efficiency_rating : Option Float
  true_shooting_pct : Option Float
  three_point_average_attempts : Option Float
  ftr : Option Float
  offensive_rebound_pct : Option Float
  defensive_rebound_pct : Option Float
  total_rebound_pct : Option Float
  assist_pct : Option Float
  steal_pct : Option Float
  block_pct : Option Float
  turnovers_pct : Option Float
  usage_pct : Option Float
  blank_1 : Option String
  offensive_win_shares : Option Float
  defensive_win_shares : Option Float
  win_shares : Option Float
  win_shares_48 : Option Float
  blank_2 : Option String
  offensive_box_plus_minus : Option Float
  defensive_box_plus_minus : Option Float
  box_plus_minus : Option Float
  value_over_replacement_player : Option Float
  field_goals : Option Int
  field_goal_attempts : Option Int
  field_goal_pct : Option Float
  three_pointers : Option Float
  three_painters_attempts : Option Float
  three_pointers_pct : Option Float
  two_pointers : Option Int
  two_pointers_attempts : Option Int
  two_pointers_pct : Option Float
  effective_field_goal_pct : Option Float
  free_throws : Option Int
  free_throw_attempts : Option Int
  free_throw_pct : Option Float
  offensive_rebounds : Option Float
  defensive_rebounds : Option Float
  total_rebounds : Option Float
  assists : Option Float
  steals : Option Float
  blocks : Option Float
  turnovers : Option Float
  fouls : Option Int
  points : Option Int

/-- A biography row with only the `player` cell set; concrete-instance
helper. -/
def bio_row (p : Option String) : PlayerRow :=
  { idx := none, player := p, height := none, weight := none, collage := none,
    born := none, birth_city := none, birth_state := none }

/-- A stats row with only the `player` cell set; concrete-instance helper. -/
def stats_row (p : Option String) : StatsRow :=
  { idx := none, season := none, player := p, position := none, age := none,
    team := none, games := none, games_started := none, minutes_played := none,
    efficiency_rating := none, true_shooting_pct := none,
    three_point_average_attempts := none, ftr := none,
    offensive_rebound_pct := none, defensive_rebound_pct := none,
    total_rebound_pct := none, assist_pct := none, steal_pct := none,
    block_pct := none, turnovers_pct := none, usage_pct := none,
    blank_1 := none, offensive_win_shares := none,
    defensive_win_shares := none, win_shares := none, win_shares_48 := none,
    blank_2 := none, offensive_box_plus_minus := none,
    defensive_box_plus_minus := none, box_plus_minus := none,
    value_over_replacement_player := none, field_goals := none,
    field_goal_attempts := none, field_goal_pct := none,
    three_pointers := none, three_painters_attempts := none,
    three_pointers_pct := none, two_pointers := none,
    two_pointers_attempts := none, two_pointers_pct := none,
    effective_field_goal_pct := none, free_throws := none,
    free_throw_attempts := none, free_throw_pct := none,
    offensive_rebounds := none, defensive_rebounds := none,
    total_rebounds := none, assists := none, steals := none, blocks := none,
    turnovers := none, fouls := none, points := none }

/-! ## The Source Reader / Correction Layer on rows

`load_data` applied to the biography table:
`read_csv(..., parse_dates=[5]).drop('idx', axis=1).dropna(how='all')`
followed by `players.player.str.replace('*', '')`.  In the pandas version in
use, `str.replace` with a single-character pattern replaces literally, so
every `'*'` character of every name is removed.  `dropna(how='all')` runs
after the counter column is dropped and `born` has become the index, so it
inspects the six remaining data columns. -/

/-- `year_parser` on one cell: `f'⟨x⟩-01-01'`. -/
def year_parse (c : Option String) : Option String :=
  c.map (fun y => y ++ "-01-01")

/-- Literal removal of every `'*'` from a name
(`.str.replace('*', '')`). -/
def strip_star (s : String) : String :=
  String.mk (s.data.filter (fun c => !(c = '*')))

/-- `parse_dates=[5]` with `date_parser=year_parser` on a biography row. -/
def parse_born (r : PlayerRow) : PlayerRow :=
  { r with born := year_parse r.born }

/-- `.drop('idx', axis=1)` on a biography row. -/
def drop_bio_idx (r : PlayerRow) : PlayerRow :=
  { r with idx := none }

/-- `dropna(how='all')` criterion for a biography row: the six data columns
remaining after `idx` is dropped (`born` is the index) are all missing. -/
def fully_empty (r : PlayerRow) : Bool :=
  r.player.isNone && r.height.isNone && r.weight.isNone && r.collage.isNone &&
    r.birth_city.isNone && r.birth_state.isNone

/-- `players.player.str.replace('*', '')` on one row. -/
def strip_player_star (r : PlayerRow) : PlayerRow :=
  { r with player := r.player.map strip_star }

/-- The biography branch of `load_data`, on the parsed data rows (header
already skipped by `skiprows=1`). -/
def bio_load (rows : List PlayerRow) : List PlayerRow :=
  (((rows.map parse_born).map drop_bio_idx).filter
      (fun r => !fully_empty r)).map strip_player_star

/-- `parse_dates=[1]` with `date_parser=year_parser` on a stats row. -/
def parse_season (r : StatsRow) : StatsRow :=
  { r with season := year_parse r.season }

/-- `.drop(['blank_1', 'blank_2', 'idx'], axis=1)` on a stats row. -/
def drop_stats_cols (r : StatsRow) : StatsRow :=
  { r with idx := none, blank_1 := none, blank_2 := none }

/-- `stats.player.str.replace('*', '')` on one row. -/
def strip_stats_star (r : StatsRow) : StatsRow :=
  { r with player := r.player.map strip_star }

/-- The stats branch of `load_data` on parsed data rows (the text-level
`blank_filter` pass and the skipping of blank lines by `read_csv` happen
before parsing; see `stats_read_lines`). -/
def stats_load (rows : List StatsRow) : List StatsRow :=
  ((rows.map parse_season).map drop_stats_cols).map strip_stats_star

/-! ## The stats file at text level

The season file is read whole, passed through `blank_filter`, and handed to
`read_csv` via `StringIO`.  `read_csv` skips the first physical line
(`skiprows=1`) and, with its default `skip_blank_lines=True`, drops the lines
that the sanitizer emptied.  `stats_read_lines` is the resulting sequence of
raw data lines that get parsed into `StatsRow`s. -/

def stats_read_lines (text : String) : List (List Char) :=
  ((splitOnChar '\n' (blank_filter text).data).drop 1).filter
    (fun l => !l.isEmpty)

/-- Facts about a raw stats line that follow from the declared schema
(`stats_types`): 53 comma-separated fields, and the `games` field (position 6,
declared `np.int`) is a nonempty digit string.  Rows matching the declared
schema satisfy this. -/
def stats_line_valid (l : List Char) : Bool :=
  ((splitOnChar ',' l).length == 53) &&
    (let g := (splitOnChar ',' l).getD 6 []
     !g.isEmpty && g.all Char.isDigit)

/-! ## The Fame Resolver -/

/-- Outcome of the primary fame fetch
(`pd.read_csv('https://timothyhelton.github.io/...')`): either the parsed
inductee table, or the `urllib.error.HTTPError` that triggers the fallback
scrape. -/
inductive FameFetch
  | ok (fame : List Inductee)
  | httpError

/-- Python `\w` for the tag pattern `</?\w>` (ASCII approximation; the tags
removed in practice are `<b>`, `</b>` and the like). -/
def isWordChar (c : Char) : Bool :=
  c.isAlphanum || c = '_'

/-- `re.sub(r'</?\w>', '', s)`: remove every three- or four-character tag
marker, scanning left to right.  When the tag pattern fails at an opening
`'<'`, no new match can begin before the following characters are emitted
(a match always starts with `'<'` directly followed by `'/'` or a word
character and the inspected positions hold `'>'` or are excluded), so the
scan resumes after the emitted prefix exactly as in `re.sub`. -/
def remove_tags : List Char → List Char
  | '<' :: '/' :: c :: '>' :: rest =>
    if isWordChar c then remove_tags rest
    else '<' :: '/' :: c :: '>' :: remove_tags rest
  | '<' :: c :: '>' :: rest =>
    if isWordChar c then remove_tags rest
    else '<' :: c :: '>' :: remove_tags rest
  | c :: rest => c :: remove_tags rest
  | [] => []

/-- `re.sub(r'\s', '', s)`: remove all whitespace. -/
def remove_spaces (l : List Char) : List Char :=
  l.filter (fun c => !c.isWhitespace)

/-- `re.sub(r',', '', s)`: remove all commas. -/
def remove_commas (l : List Char) : List Char :=
  l.filter (fun c => !(c = ','))

/-- The three cleanup passes applied to a scraped category description. -/
def clean_category (s : String) : String :=
  String.mk (remove_commas (remove_spaces (remove_tags s.data)))

/-- `Statistics.scrape_hall_of_fame` after HTML extraction: `members` is the
list of `(bold-name, trailing-description)` pairs produced by
`re.findall(r'<p>\s<b>(.+?)</b>(.+?)</p>', str(tags))`.  The first pair is
discarded (`members[1:]`), the description is cleaned, and the result becomes
the fame table.  Note that an empty `members` list yields an empty fame table
without any error. -/
def scrape_hall_of_fame (members : List (String × String)) : List Inductee :=
  (members.drop 1).map (fun x => ⟨x.1, clean_category x.2⟩)

/-- Replace every occurrence of `"Dan Issell"` by `"Dan Issel"` in a name
(`fame.name.str.replace('Dan Issell', 'Dan Issel')`, a literal multi-character
pattern: non-overlapping left-to-right substitution). -/
def dan_issel_chars : List Char → List Char
  | 'D' :: 'a' :: 'n' :: ' ' :: 'I' :: 's' :: 's' :: 'e' :: 'l' :: 'l' :: rest =>
    'D' :: 'a' :: 'n' :: ' ' :: 'I' :: 's' :: 's' :: 'e' :: 'l' :: dan_issel_chars rest
  | c :: rest => c :: dan_issel_chars rest
  | [] => []

/-- The Correction Layer on one inductee name. -/
def dan_issel_fix (s : String) : String :=
  String.mk (dan_issel_chars s.data)

/-! ## The Join Engine -/

/-- `fame.query('category == "Player"').name`: the inductee names restricted
to category `"Player"`. -/
def filter_players (fame : List Inductee) : List String :=
  (fame.filter (fun r => decide (r.category = "Player"))).map (fun r => r.name)

/-- Membership of a (possibly missing) cell in a name list: the semantics of
`Series.isin` on a string column (`NaN` is never in a list of strings). -/
def cellIn (c : Option String) (names : List String) : Bool :=
  match c with
  | none => false
  | some s => decide (s ∈ names)

/-- Filter-to-fame on the biography table:
`players[players.player.isin(filter_players)]`. -/
def filter_to_fame (players : List PlayerRow) (names : List String) : List PlayerRow :=
  players.filter (fun r => cellIn r.player names)

/-- Filter-to-fame on the stats table:
`stats[stats.player.isin(filter_players)]`. -/
def stats_filter_to_fame (stats : List StatsRow) (names : List String) : List StatsRow :=
  stats.filter (fun r => cellIn r.player names)

/-- `self.players_fame.player.tolist()`: the name column of the fame-filtered
biography table (every row of `players_fame` has a present name). -/
def players_fame_names (fame : List Inductee) (players : List PlayerRow) : List String :=
  (filter_to_fame players (filter_players fame)).filterMap (fun r => r.player)

/-- `self.stats.player.unique()`: the distinct player names of the stats
table (missing cells contribute the `NaN` entry, which never equals a string
and is therefore omitted). -/
def stats_player_unique (stats : List StatsRow) : List String :=
  (stats.filterMap (fun r => r.player)).dedup

/-- One diff branch of `missing_hall_of_fame`, keeping the fame row index:
`fame[~fame.isin(lst)].dropna().query('category == "Player"').name`.
`fame.isin(lst)` masks each of the two cells of a row independently, the
masked cells become `NaN`, and `dropna()` then keeps a row only if *both* its
name and its category are absent from `lst`. -/
def missing_from (fame : List Inductee) (lst : List String) : List (Nat × String) :=
  ((fame.enum.filter (fun p =>
        !(decide (p.2.name ∈ lst)) && !(decide (p.2.category ∈ lst)))).filter
      (fun p => decide (p.2.category = "Player"))).map (fun p => (p.1, p.2.name))

/-- The `no_players` series of `missing_hall_of_fame` (indexed by fame row). -/
def no_players_idx (fame : List Inductee) (players : List PlayerRow) : List (Nat × String) :=
  missing_from fame (players_fame_names fame players)

/-- The `no_stats` series of `missing_hall_of_fame` (indexed by fame row). -/
def no_stats_idx (fame : List Inductee) (stats : List StatsRow) : List (Nat × String) :=
  missing_from fame (stats_player_unique stats)

/-- The values of the `no_players` series. -/
def no_players (fame : List Inductee) (players : List PlayerRow) : List String :=
  (no_players_idx fame players).map (fun p => p.2)

/-- The values of the `no_stats` series. -/
def no_stats (fame : List Inductee) (stats : List StatsRow) : List String :=
  (no_stats_idx fame stats).map (fun p => p.2)

/-- The two-column result of `missing_hall_of_fame` after
`pd.concat([no_players, no_stats], axis=1, join='outer', ignore_index=True)`,
the column rename and `reset_index(drop=True)`.  `ignore_index=True` applies
to the concatenation axis (the columns); the row axis is the *outer join* of
the two series' indexes, i.e. the sorted union of the originating fame row
positions, with a missing entry where a series has no value at that row. -/
structure MissingTable where
  player_dataset : List (Option String)
  stats_dataset : List (Option String)
deriving DecidableEq

/-- `Statistics.missing_hall_of_fame`. -/
def missing_hall_of_fame (fame : List Inductee) (players : List PlayerRow)
    (stats : List StatsRow) : MissingTable :=
  let np := no_players_idx fame players
  let ns := no_stats_idx fame stats
  let idxs := (List.range fame.length).filter
    (fun i => np.any (fun p => p.1 == i) || ns.any (fun p => p.1 == i))
  { player_dataset := idxs.map (fun i => np.lookup i),
    stats_dataset := idxs.map (fun i => ns.lookup i) }

/-! ## The Reporting Facade: `Statistics.__init__` -/

/-- The state of a fully constructed `Statistics` object. -/
structure Statistics where
  fame : List Inductee
  players : List PlayerRow
  stats : List StatsRow
  players_fame : List PlayerRow
  stats_fame : List StatsRow

/-- `Statistics.__init__`: resolve the fame table (primary fetch, falling
back to the scrape on `HTTPError`), apply the Dan Issel correction, load both
datasets, and compute the fame-filtered views.  The construction is total:
every step is a total transformation, so a `Statistics` value is always
produced. -/
def statistics_init (primary : FameFetch) (members : List (String × String))
    (playersRaw : List PlayerRow) (statsRaw : List StatsRow) : Statistics :=
  let fame0 := match primary with
    | .ok t => t
    | .httpError => scrape_hall_of_fame members
  let fame := fame0.map (fun r => { r with name := dan_issel_fix r.name })
  let players := bio_load playersRaw
  let stats := stats_load statsRaw
  let fp := filter_players fame
  { fame := fame, players := players, stats := stats,
    players_fame := filter_to_fame players fp,
    stats_fame := stats_filter_to_fame stats fp }

/-! ## Statement-level predicates and concrete instances -/

/-- A (possibly missing) name cell contains no `'*'` character. -/
def star_free (c : Option String) : Bool :=
  match c with
  | none => true
  | some s => decide ('*' ∉ s.data)

/-- A (possibly missing) name cell differs from a given (defective) name. -/
def cell_avoid (bad : String) (c : Option String) : Bool :=
  match c with
  | none => true
  | some s => !(s == bad)

/-- Modelled from the spec: the combination step as the spec describes it —
the two result sequences placed side by side, the shorter column padded at
the end with missing entries so both columns have equal length, each column
keeping the natural order of its underlying result.  Used only to compare
the spec's description with `missing_hall_of_fame`. -/
def missing_table_padded (np ns : List String) : MissingTable :=
  let len := max np.length ns.length
  { player_dataset := np.map some ++ List.replicate (len - np.length) none,
    stats_dataset := ns.map some ++ List.replicate (len - ns.length) none }

/-- The inductee set of the Correction Layer scenario (C8). -/
def fame_scenario : List Inductee :=
  [⟨"Dan Issell", "Player"⟩, ⟨"Red Auerbach", "Coach"⟩]

/-- Inductee table of the C1 counterexample. -/
def fame_c1 : List Inductee := [⟨"Bob", "Player"⟩]

/-- Stats table of the C1 counterexample: one row whose player is literally
named `"Player"`. -/
def stats_c1 : List StatsRow := [stats_row (some "Player")]

/-- Inductee table of the C1 witness. -/
def fame_w : List Inductee := [⟨"Bob", "Player"⟩, ⟨"Amy", "Player"⟩]

/-- Biography table of the C1 witness. -/
def players_w : List PlayerRow := [bio_row (some "Amy")]

/-- Inductee table of the C9 counterexample. -/
def fame_c9 : List Inductee :=
  [⟨"A", "Player"⟩, ⟨"B", "Player"⟩, ⟨"C", "Player"⟩]

/-- Biography table of the C9 counterexample (contains A and B, lacks C). -/
def players_c9 : List PlayerRow := [bio_row (some "A"), bio_row (some "B")]

/-- Stats table of the C9 counterexample (contains C, lacks A and B). -/
def stats_c9 : List StatsRow := [stats_row (some "C")]

/-- Header line of the C4 witness file. -/
def c4_header : List Char :=
  ("idx,Year,Player,Pos,Age,Tm,G" ++ String.mk (List.replicate 46 ',')).data

/-- A schema-valid stats data line for the C4 witness: 53 fields, digit
`games` field. -/
def c4_line : List Char :=
  ("0,1950,Bob Cousy,PG,21,BOS,63" ++ String.mk (List.replicate 46 ',')).data

/-! ## Theorems -/

theorem splitOnChar_ne_nil (sep : Char) (cs : List Char) : splitOnChar sep cs ≠ [] := by
  cases cs with
  | nil => simp [splitOnChar]
  | cons c cs =>
    simp only [splitOnChar]
    split
    · simp
    · cases h : splitOnChar sep cs <;> simp

theorem sep_not_mem_of_mem_splitOnChar (sep : Char) (cs : List Char) :
    ∀ l ∈ splitOnChar sep cs, sep ∉ l := by
  induction cs with
  | nil => intro l hl; simp [splitOnChar] at hl; simp [hl]
  | cons c cs ih =>
    intro l hl
    simp only [splitOnChar] at hl
    by_cases hc : c = sep
    · simp [hc] at hl
      rcases hl with hl | hl
      · simp [hl]
      · exact ih l hl
    · simp [hc] at hl
      cases h : splitOnChar sep cs with
      | nil => exact absurd h (splitOnChar_ne_nil sep cs)
      | cons l0 ls =>
        rw [h] at hl
        rcases List.mem_cons.mp hl with hl | hl
        · subst hl
          intro hmem
          rcases List.mem_cons.mp hmem with h1 | h1
          · exact hc h1.symm
          · exact ih l0 (h ▸ List.mem_cons_self l0 ls) h1
        · exact ih l (h ▸ List.mem_cons_of_mem l0 hl)

theorem splitOnChar_eq_single (sep : Char) (l : List Char) (h : sep ∉ l) :
    splitOnChar sep l = [l] := by
  induction l with
  | nil => rfl
  | cons c cs ih =>
    have hc : ¬(c = sep) := fun hcs => h (hcs ▸ List.mem_cons_self c cs)
    have hcs : sep ∉ cs := fun hmem => h (List.mem_cons_of_mem c hmem)
    simp only [splitOnChar, if_neg hc, ih hcs]

theorem splitOnChar_append_cons (sep : Char) (l₁ l₂ : List Char) (h : sep ∉ l₁) :
    splitOnChar sep (l₁ ++ sep :: l₂) = l₁ :: splitOnChar sep l₂ := by
  induction l₁ with
  | nil => simp [splitOnChar]
  | cons c cs ih =>
    have hc : ¬(c = sep) := fun hcs => h (hcs ▸ List.mem_cons_self c cs)
    have hcs : sep ∉ cs := fun hmem => h (List.mem_cons_of_mem c hmem)
    simp only [List.cons_append, splitOnChar, if_neg hc]
    rw [List.append_eq, ih hcs]

theorem splitOnChar_joinOnChar (sep : Char) (ls : List (List Char)) (hne : ls ≠ [])
    (h : ∀ l ∈ ls, sep ∉ l) : splitOnChar sep (joinOnChar sep ls) = ls := by
  induction ls with
  | nil => exact absurd rfl hne
  | cons l ls ih =>
    cases ls with
    | nil =>
      simp only [joinOnChar]
      exact splitOnChar_eq_single sep l (h l (List.mem_cons_self l []))
    | cons l' ls' =>
      have hl : sep ∉ l := h l (List.mem_cons_self l (l' :: ls'))
      have hrest : ∀ x ∈ l' :: ls', sep ∉ x := fun x hx => h x (List.mem_cons_of_mem l hx)
      show splitOnChar sep (l ++ sep :: joinOnChar sep (l' :: ls')) = l :: l' :: ls'
      rw [splitOnChar_append_cons sep l _ hl, ih (by simp) hrest]

theorem joinOnChar_splitOnChar (sep : Char) (cs : List Char) :
    joinOnChar sep (splitOnChar sep cs) = cs := by
  induction cs with
  | nil => rfl
  | cons c cs ih =>
    simp only [splitOnChar]
    by_cases hc : c = sep
    · rw [if_pos hc]
      cases h : splitOnChar sep cs with
      | nil => exact absurd h (splitOnChar_ne_nil sep cs)
      | cons l ls =>
        show joinOnChar sep ([] :: l :: ls) = c :: cs
        show [] ++ sep :: joinOnChar sep (l :: ls) = c :: cs
        rw [h] at ih
        simp [hc, ih]
    · rw [if_neg hc]
      cases h : splitOnChar sep cs with
      | nil => exact absurd h (splitOnChar_ne_nil sep cs)
      | cons l ls =>
        rw [h] at ih
        cases ls with
        | nil =>
          show joinOnChar sep [c :: l] = c :: cs
          show c :: l = c :: cs
          simpa [joinOnChar] using ih
        | cons l' ls' =>
          show (c :: l) ++ sep :: joinOnChar sep (l' :: ls') = c :: cs
          simpa [joinOnChar] using congrArg (c :: ·) ih

theorem count_sep_joinOnChar (sep : Char) (ls : List (List Char)) (hne : ls ≠ [])
    (h : ∀ l ∈ ls, sep ∉ l) :
    (joinOnChar sep ls).count sep = ls.length - 1 := by
  induction ls with
  | nil => exact absurd rfl hne
  | cons l ls ih =>
    cases ls with
    | nil =>
      simp only [joinOnChar, List.length_singleton]
      exact List.count_eq_zero.mpr (h l (List.mem_cons_self l []))
    | cons l' ls' =>
      have hl : sep ∉ l := h l (List.mem_cons_self l (l' :: ls'))
      have hrest : ∀ x ∈ l' :: ls', sep ∉ x := fun x hx => h x (List.mem_cons_of_mem l hx)
      show ((l ++ sep :: joinOnChar sep (l' :: ls')).count sep) = (l :: l' :: ls').length - 1
      rw [List.count_append, List.count_cons_self, List.count_eq_zero.mpr hl,
        ih (by simp) hrest]
      simp [Nat.succ_sub_one]

theorem is_artifact_line_nil : is_artifact_line [] = false := by
  decide

theorem artifact_blank_idem (l : List Char) :
    artifact_blank (artifact_blank l) = artifact_blank l := by
  by_cases h : is_artifact_line l = true
  · simp [artifact_blank, h, is_artifact_line_nil]
  · simp [artifact_blank, h]

theorem newline_not_mem_artifact_blank (l : List Char) (h : '\n' ∉ l) :
    '\n' ∉ artifact_blank l := by
  by_cases ha : is_artifact_line l = true
  · simp [artifact_blank, ha]
  · simpa [artifact_blank, ha] using h

/-- The line decomposition of `blank_filter text` is the blanked line
decomposition of `text`. -/
theorem splitOnChar_blank_filter (text : String) :
    splitOnChar '\n' (blank_filter text).data
      = (splitOnChar '\n' text.data).map artifact_blank := by
  show splitOnChar '\n' (joinOnChar '\n' ((splitOnChar '\n' text.data).map artifact_blank))
      = (splitOnChar '\n' text.data).map artifact_blank
  apply splitOnChar_joinOnChar
  · intro h
    exact splitOnChar_ne_nil '\n' text.data (List.map_eq_nil_iff.mp h)
  · intro l hl
    rcases List.mem_map.mp hl with ⟨l0, hl0, rfl⟩
    exact newline_not_mem_artifact_blank l0
      (sep_not_mem_of_mem_splitOnChar '\n' text.data l0 hl0)

/-- C6: Applying the Text Sanitizer (blank_filter) to the text
`"1,,,\nJohn,25,6.5\n2,,\n"` yields exactly `"\nJohn,25,6.5\n\n"`: every line
consisting only of digits followed by commas becomes an empty line, and all
other lines are unchanged with line order preserved. -/
theorem blank_filter_scenario :
    blank_filter "1,,,\nJohn,25,6.5\n2,,\n" = "\nJohn,25,6.5\n\n" := by
  decide

/-- C7: The Text Sanitizer is idempotent: for every input text, applying
`blank_filter` twice produces the same result as applying it once. -/
theorem blank_filter_idem (text : String) :
    blank_filter (blank_filter text) = blank_filter text := by
  show String.mk (joinOnChar '\n'
        ((splitOnChar '\n' (blank_filter text).data).map artifact_blank))
      = blank_filter text
  rw [splitOnChar_blank_filter, List.map_map]
  show String.mk (joinOnChar '\n'
        ((splitOnChar '\n' text.data).map (artifact_blank ∘ artifact_blank)))
      = blank_filter text
  rw [show (artifact_blank ∘ artifact_blank) = artifact_blank from
    funext artifact_blank_idem]
  rfl

/-- C10: For every input text, `blank_filter` preserves the number of lines
and the number of newline characters: its line decomposition is the blanked
line decomposition of the input, so no line and no `'\n'` is ever deleted;
only the content of matching artifact lines is replaced by the empty
string. -/
theorem blank_filter_preserves_lines (text : String) :
    splitOnChar '\n' (blank_filter text).data
        = (splitOnChar '\n' text.data).map artifact_blank
    ∧ (splitOnChar '\n' (blank_filter text).data).length
        = (splitOnChar '\n' text.data).length
    ∧ (blank_filter text).data.count '\n' = text.data.count '\n' := by
  refine ⟨splitOnChar_blank_filter text, ?_, ?_⟩
  · rw [splitOnChar_blank_filter text, List.length_map]
  · have hmem : ∀ l ∈ (splitOnChar '\n' text.data).map artifact_blank, '\n' ∉ l := by
      intro l hl
      rcases List.mem_map.mp hl with ⟨l0, hl0, rfl⟩
      exact newline_not_mem_artifact_blank l0
        (sep_not_mem_of_mem_splitOnChar '\n' text.data l0 hl0)
    have hne : (splitOnChar '\n' text.data).map artifact_blank ≠ [] := by
      intro h
      exact splitOnChar_ne_nil '\n' text.data (List.map_eq_nil_iff.mp h)
    have h1 : (blank_filter text).data.count '\n'
        = ((splitOnChar '\n' text.data).map artifact_blank).length - 1 :=
      count_sep_joinOnChar '\n' _ hne hmem
    have h2 : text.data.count '\n' = (splitOnChar '\n' text.data).length - 1 := by
      conv_lhs => rw [← joinOnChar_splitOnChar '\n' text.data]
      exact count_sep_joinOnChar '\n' _ (splitOnChar_ne_nil '\n' text.data)
        (sep_not_mem_of_mem_splitOnChar '\n' text.data)
    rw [h1, h2, List.length_map]


/-! ### Filter-to-fame (C2) -/

/-- C2: For every table T (biography or stats) and every inductee set S, the
Filter-to-fame operation returns a subset of T — every row of the result
(`players_fame`, `stats_fame`) is a row of T — and a row is in the result
exactly when it is a row of T whose player name is a member of the inductee
names of category "Player" (`cellIn r.player (filter_players fame)`). -/
theorem filter_to_fame_subset (players : List PlayerRow) (stats : List StatsRow)
    (fame : List Inductee) :
    (filter_to_fame players (filter_players fame)).Sublist players
    ∧ (∀ r, r ∈ filter_to_fame players (filter_players fame)
        ↔ (r ∈ players ∧ cellIn r.player (filter_players fame) = true))
    ∧ (stats_filter_to_fame stats (filter_players fame)).Sublist stats
    ∧ (∀ r, r ∈ stats_filter_to_fame stats (filter_players fame)
        ↔ (r ∈ stats ∧ cellIn r.player (filter_players fame) = true)) := by
  refine ⟨List.filter_sublist players, ?_, List.filter_sublist stats, ?_⟩
  · intro r
    simp [filter_to_fame, List.mem_filter]
  · intro r
    simp [stats_filter_to_fame, List.mem_filter]

/-! ### Asterisk stripping (C5) -/

theorem star_free_map_strip (c : Option String) :
    star_free (c.map strip_star) = true := by
  cases c with
  | none => rfl
  | some s =>
    show decide ('*' ∉ (strip_star s).data) = true
    rw [decide_eq_true_eq]
    intro h
    have hmem : '*' ∈ s.data.filter (fun c => !(c = '*')) := h
    rcases List.mem_filter.mp hmem with ⟨-, hne⟩
    simp at hne

theorem all_star_free_of_filter (l : List PlayerRow) (names : List String)
    (h : l.all (fun r => star_free r.player) = true) :
    (filter_to_fame l names).all (fun r => star_free r.player) = true := by
  rw [List.all_eq_true] at h ⊢
  intro r hr
  exact h r (List.mem_filter.mp hr).1

theorem all_star_free_of_stats_filter (l : List StatsRow) (names : List String)
    (h : l.all (fun r => star_free r.player) = true) :
    (stats_filter_to_fame l names).all (fun r => star_free r.player) = true := by
  rw [List.all_eq_true] at h ⊢
  intro r hr
  exact h r (List.mem_filter.mp hr).1

theorem bio_load_star_free (rows : List PlayerRow) :
    (bio_load rows).all (fun r => star_free r.player) = true := by
  rw [List.all_eq_true]
  intro r hr
  rcases List.mem_map.mp hr with ⟨r0, -, rfl⟩
  exact star_free_map_strip r0.player

theorem stats_load_star_free (rows : List StatsRow) :
    (stats_load rows).all (fun r => star_free r.player) = true := by
  rw [List.all_eq_true]
  intro r hr
  rcases List.mem_map.mp hr with ⟨r0, -, rfl⟩
  exact star_free_map_strip r0.player

/-- C5: After loading completes, every player name stored in the biography
table and in the stats table contains no `'*'` character, even when the raw
input names carried asterisk markers; the subsequently computed fame-filtered
views of the stored tables keep this property. -/
theorem no_asterisk_after_load (rows : List PlayerRow) (srows : List StatsRow)
    (names : List String) :
    (bio_load rows).all (fun r => star_free r.player) = true
    ∧ (stats_load srows).all (fun r => star_free r.player) = true
    ∧ (filter_to_fame (bio_load rows) names).all (fun r => star_free r.player) = true
    ∧ (stats_filter_to_fame (stats_load srows) names).all
        (fun r => star_free r.player) = true :=
  ⟨bio_load_star_free rows, stats_load_star_free srows,
    all_star_free_of_filter _ names (bio_load_star_free rows),
    all_star_free_of_stats_filter _ names (stats_load_star_free srows)⟩

/-! ### Source Reader row counts (C4) -/

theorem length_filter_not {α : Type} (p : α → Bool) (l : List α) :
    (l.filter (fun a => !p a)).length = l.length - l.countP p := by
  induction l with
  | nil => rfl
  | cons a l ih =>
    have hle : l.countP p ≤ l.length := l.countP_le_length p
    by_cases h : p a = true
    · simp [List.filter_cons, List.countP_cons, h, ih]
    · simp [List.filter_cons, List.countP_cons, h, ih]
      omega

theorem fully_empty_parse (r : PlayerRow) :
    fully_empty (drop_bio_idx (parse_born r)) = fully_empty r := rfl

theorem bio_load_length (rows : List PlayerRow) :
    (bio_load rows).length = rows.length - rows.countP (fun r => fully_empty r) := by
  show ((((rows.map parse_born).map drop_bio_idx).filter
      (fun r => !fully_empty r)).map strip_player_star).length
    = rows.length - rows.countP (fun r => fully_empty r)
  rw [List.length_map, length_filter_not, List.length_map, List.length_map,
    List.countP_map, List.countP_map]
  rfl

theorem splitOnChar_replicate_sep (sep : Char) (n : Nat) :
    splitOnChar sep (List.replicate n sep) = List.replicate (n + 1) [] := by
  induction n with
  | zero => rfl
  | succ n ih =>
    show splitOnChar sep (sep :: List.replicate n sep) = [] :: List.replicate (n + 1) []
    rw [← ih]
    simp [splitOnChar]

theorem is_artifact_line_splits (l : List Char) (h : is_artifact_line l = true) :
    splitOnChar ',' l
      = l.takeWhile Char.isDigit
          :: List.replicate (l.dropWhile Char.isDigit).length [] := by
  simp only [is_artifact_line, Bool.and_eq_true, Bool.not_eq_true',
    List.isEmpty_eq_false, List.all_eq_true, decide_eq_true_eq] at h
  obtain ⟨⟨hds, hrest⟩, hcomma⟩ := h
  have hrep : l.dropWhile Char.isDigit
      = List.replicate (l.dropWhile Char.isDigit).length ',' := by
    apply List.eq_replicate_of_mem
    intro b hb
    exact hcomma b hb
  have hsplit : l = l.takeWhile Char.isDigit ++ l.dropWhile Char.isDigit :=
    (List.takeWhile_append_dropWhile Char.isDigit l).symm
  have hnocomma : ',' ∉ l.takeWhile Char.isDigit := by
    intro hmem
    have := List.mem_takeWhile_imp hmem
    simp at this
  obtain ⟨k, hk⟩ : ∃ k, (l.dropWhile Char.isDigit).length = k + 1 := by
    cases hlen : (l.dropWhile Char.isDigit).length with
    | zero => exact absurd (List.length_eq_zero.mp hlen) hrest
    | succ k => exact ⟨k, rfl⟩
  conv_lhs => rw [hsplit, hrep, hk]
  rw [List.replicate_succ, splitOnChar_append_cons _ _ _ hnocomma,
    splitOnChar_replicate_sep, hk]

theorem getD_replicate_nil (n i : Nat) :
    (List.replicate n ([] : List Char)).getD i [] = [] := by
  induction n generalizing i with
  | zero => simp
  | succ n ih =>
    cases i with
    | zero => rfl
    | succ i =>
      rw [List.replicate_succ, List.getD_cons_succ]
      exact ih i

theorem stats_line_valid_not_artifact (l : List Char)
    (h : stats_line_valid l = true) :
    is_artifact_line l = false ∧ l ≠ [] := by
  simp only [stats_line_valid, Bool.and_eq_true, beq_iff_eq,
    Bool.not_eq_true', List.isEmpty_eq_false, List.all_eq_true] at h
  obtain ⟨hlen, hne, -⟩ := h
  constructor
  · by_contra hart
    rw [Bool.not_eq_false] at hart
    have hsp := is_artifact_line_splits l hart
    rw [hsp] at hlen hne
    have hk : (l.dropWhile Char.isDigit).length = 52 := by
      simpa using hlen
    rw [hk] at hne
    have : (l.takeWhile Char.isDigit :: List.replicate 52 ([] : List Char)).getD 6 []
        = (List.replicate 52 ([] : List Char)).getD 5 [] := rfl
    rw [this, getD_replicate_nil] at hne
    exact hne rfl
  · intro hnil
    rw [hnil] at hlen
    simp [splitOnChar] at hlen

theorem stats_pipeline_keeps_valid_lines (header : List Char)
    (dataLines : List (List Char)) (hh : '\n' ∉ header)
    (hd : ∀ l ∈ dataLines, '\n' ∉ l ∧ stats_line_valid l = true) :
    stats_read_lines (String.mk (joinOnChar '\n' (header :: dataLines)))
      = dataLines := by
  have hfree : ∀ l ∈ header :: dataLines, '\n' ∉ l := by
    intro l hl
    rcases List.mem_cons.mp hl with rfl | hl
    · exact hh
    · exact (hd l hl).1
  have hsplit1 : splitOnChar '\n'
      (String.mk (joinOnChar '\n' (header :: dataLines))).data
      = header :: dataLines :=
    splitOnChar_joinOnChar '\n' _ (by simp) hfree
  have hsplit2 : splitOnChar '\n'
        (blank_filter (String.mk (joinOnChar '\n' (header :: dataLines)))).data
      = (header :: dataLines).map artifact_blank := by
    rw [splitOnChar_blank_filter, hsplit1]
  have hmap : dataLines.map artifact_blank = dataLines := by
    apply List.map_congr_left ?_ |>.trans (List.map_id dataLines)
    intro l hl
    have := (stats_line_valid_not_artifact l (hd l hl).2).1
    simp [artifact_blank, this]
  show ((splitOnChar '\n'
      (blank_filter (String.mk (joinOnChar '\n' (header :: dataLines)))).data).drop
        1).filter (fun l => !l.isEmpty) = dataLines
  rw [hsplit2]
  show ((dataLines.map artifact_blank).filter (fun l => !l.isEmpty)) = dataLines
  rw [hmap]
  apply List.filter_eq_self.mpr
  intro l hl
  have hne := (stats_line_valid_not_artifact l (hd l hl).2).2
  simp [List.isEmpty_iff, hne]

/-- C4: For every input whose rows match the declared schema, the Source
Reader's output row count equals the input data-row count minus the number of
fully-empty rows for the biography table, and exactly equals the input
data-row count for the stats table (after the header line is skipped).  For
the stats file the hypothesis records the schema facts used: each data line
is newline-free, splits into the declared 53 fields, and its `np.int`-typed
`games` field holds a nonempty digit literal (so no schema-valid line matches
the artifact blank-line pattern). -/
theorem source_reader_row_counts :
    (∀ rows : List PlayerRow,
      (bio_load rows).length = rows.length - rows.countP (fun r => fully_empty r))
    ∧ (∀ header dataLines, '\n' ∉ header →
        (∀ l ∈ dataLines, '\n' ∉ l ∧ stats_line_valid l = true) →
        (stats_read_lines (String.mk (joinOnChar '\n' (header :: dataLines)))).length
          = dataLines.length) := by
  refine ⟨bio_load_length, ?_⟩
  intro header dataLines hh hd
  rw [stats_pipeline_keeps_valid_lines header dataLines hh hd]

/-- C4 witness: a concrete one-row stats file and the evaluated row count. -/
theorem source_reader_row_counts_witness :
    ('\n' ∉ c4_header ∧ ∀ l ∈ [c4_line], '\n' ∉ l ∧ stats_line_valid l = true)
    ∧ (stats_read_lines (String.mk (joinOnChar '\n' (c4_header :: [c4_line])))).length
        = 1 :=
  ⟨⟨by decide, by decide⟩,
    source_reader_row_counts.2 c4_header [c4_line] (by decide) (by decide)⟩

/-! ### Empty scrape behaviour (C3) -/

theorem cellIn_nil (c : Option String) : cellIn c [] = false := by
  cases c <;> rfl

theorem filter_to_fame_nil (l : List PlayerRow) : filter_to_fame l [] = [] := by
  induction l with
  | nil => rfl
  | cons r l ih =>
    show List.filter (fun r => cellIn r.player []) (r :: l) = []
    rw [List.filter_cons, cellIn_nil, if_neg Bool.false_ne_true]
    exact ih

theorem stats_filter_to_fame_nil (l : List StatsRow) :
    stats_filter_to_fame l [] = [] := by
  induction l with
  | nil => rfl
  | cons r l ih =>
    show List.filter (fun r => cellIn r.player []) (r :: l) = []
    rw [List.filter_cons, cellIn_nil, if_neg Bool.false_ne_true]
    exact ih

/-- C3 counterexample: when the primary fame fetch fails and the fallback
extracts zero paragraph pairs, `Statistics.__init__` does *not* raise — no
`ScrapeError` exists anywhere in the code and `scrape_hall_of_fame` builds an
empty frame from zero matches — so construction succeeds and the caller
observes a fully-initialized facade whose tables are all empty.  Evaluated
here at the concrete empty-input instance. -/
theorem scrape_empty_constructs :
    statistics_init .httpError [] [] []
      = { fame := [], players := [], stats := [], players_fame := [],
          stats_fame := [] } := rfl

/-- C3 (amended): if the primary fame fetch fails with a network error and
the fallback HTML scrape extracts zero (bold-name, description) paragraph
pairs, construction of the Reporting Facade nevertheless completes without
any error: the facade is observable with an empty inductee table, the two
source tables loaded as usual, and empty fame-filtered views. -/
theorem scrape_empty_facade (players : List PlayerRow) (stats : List StatsRow) :
    (statistics_init .httpError [] players stats).fame = []
    ∧ (statistics_init .httpError [] players stats).players = bio_load players
    ∧ (statistics_init .httpError [] players stats).stats = stats_load stats
    ∧ (statistics_init .httpError [] players stats).players_fame = []
    ∧ (statistics_init .httpError [] players stats).stats_fame = [] := by
  refine ⟨rfl, rfl, rfl, ?_, ?_⟩
  · show filter_to_fame (bio_load players) (filter_players []) = []
    exact filter_to_fame_nil _
  · show stats_filter_to_fame (stats_load stats) (filter_players []) = []
    exact stats_filter_to_fame_nil _

/-! ### Enumeration and association-list lemmas for the diff operation -/

theorem snd_mem_of_mem_enumFrom {α : Type} :
    ∀ {l : List α} {k : Nat} {p : Nat × α}, p ∈ l.enumFrom k → p.2 ∈ l := by
  intro l
  induction l with
  | nil => intro k p h; simp [List.enumFrom] at h
  | cons a l ih =>
    intro k p h
    rw [List.enumFrom] at h
    rcases List.mem_cons.mp h with rfl | h
    · exact List.mem_cons_self a l
    · exact List.mem_cons_of_mem a (ih h)

theorem snd_mem_of_mem_enum {α : Type} {l : List α} {p : Nat × α}
    (h : p ∈ l.enum) : p.2 ∈ l :=
  snd_mem_of_mem_enumFrom h

theorem mem_enumFrom_of_mem {α : Type} {l : List α} {a : α} (h : a ∈ l) :
    ∀ k, ∃ i, (i, a) ∈ l.enumFrom k := by
  induction l with
  | nil => exact absurd h (List.not_mem_nil a)
  | cons b l ih =>
    intro k
    rcases List.mem_cons.mp h with rfl | h
    · exact ⟨k, by rw [List.enumFrom]; exact List.mem_cons_self _ _⟩
    · obtain ⟨i, hi⟩ := ih h (k + 1)
      exact ⟨i, by rw [List.enumFrom]; exact List.mem_cons_of_mem _ hi⟩

theorem mem_enum_of_mem {α : Type} {l : List α} {a : α} (h : a ∈ l) :
    ∃ i, (i, a) ∈ l.enum :=
  mem_enumFrom_of_mem h 0

theorem lookup_eq_none_of_not_fst (ps : List (Nat × String)) (i : Nat)
    (h : i ∉ ps.map Prod.fst) : ps.lookup i = none := by
  induction ps with
  | nil => rfl
  | cons p ps ih =>
    obtain ⟨j, v⟩ := p
    simp only [List.map_cons, List.mem_cons, not_or] at h
    obtain ⟨hij, hmem⟩ := h
    have hb : (i == j) = false := by simpa using hij
    simp [List.lookup, hb, ih hmem]

theorem filterMap_congr_fun {f g : Nat → Option String} (l : List Nat)
    (h : ∀ i ∈ l, f i = g i) : l.filterMap f = l.filterMap g := by
  induction l with
  | nil => rfl
  | cons i l ih =>
    rw [List.filterMap_cons, List.filterMap_cons, h i (List.mem_cons_self i l),
      ih (fun j hj => h j (List.mem_cons_of_mem i hj))]

theorem filterMap_lookup_filter (ps : List (Nat × String)) (idxs : List Nat) :
    idxs.filterMap (fun i => ps.lookup i)
      = (idxs.filter (fun i => decide (i ∈ ps.map Prod.fst))).filterMap
          (fun i => ps.lookup i) := by
  induction idxs with
  | nil => rfl
  | cons i idxs ih =>
    by_cases hm : i ∈ ps.map Prod.fst
    · have hd : (decide (i ∈ ps.map Prod.fst)) = true := by simpa using hm
      rw [List.filter_cons, hd, if_pos rfl]
      rw [List.filterMap_cons, List.filterMap_cons]
      cases ps.lookup i <;> simp [ih]
    · have hd : (decide (i ∈ ps.map Prod.fst)) = false := by simpa using hm
      rw [List.filter_cons, hd, if_neg Bool.false_ne_true]
      rw [List.filterMap_cons, lookup_eq_none_of_not_fst ps i hm]
      exact ih

theorem filterMap_lookup_fst (ps : List (Nat × String))
    (h : (ps.map Prod.fst).Nodup) :
    (ps.map Prod.fst).filterMap (fun i => ps.lookup i) = ps.map Prod.snd := by
  induction ps with
  | nil => rfl
  | cons p ps ih =>
    obtain ⟨j, v⟩ := p
    simp only [List.map_cons, List.nodup_cons] at h
    obtain ⟨hj, hps⟩ := h
    show List.filterMap (fun i => List.lookup i ((j, v) :: ps)) (j :: ps.map Prod.fst)
      = v :: ps.map Prod.snd
    rw [List.filterMap_cons]
    have hjj : (List.lookup j ((j, v) :: ps)) = some v := by simp [List.lookup]
    rw [hjj]
    have hcongr : ∀ i ∈ ps.map Prod.fst,
        List.lookup i ((j, v) :: ps) = List.lookup i ps := by
      intro i hi
      have hb : (i == j) = false := by
        simp only [beq_eq_false_iff_ne, ne_eq]
        rintro rfl
        exact hj hi
      simp [List.lookup, hb]
    rw [filterMap_congr_fun _ hcongr, ih hps]

theorem filter_mem_of_sublist {l r : List Nat} (h : l.Sublist r) (hr : r.Nodup) :
    r.filter (fun i => decide (i ∈ l)) = l := by
  induction h with
  | slnil => rfl
  | @cons l₁ r₂ a h ih =>
    have hnot : a ∉ l₁ := fun hmem =>
      (List.nodup_cons.mp hr).1 (h.subset hmem)
    have hd : (decide (a ∈ l₁)) = false := by simpa using hnot
    rw [List.filter_cons, hd, if_neg Bool.false_ne_true]
    exact ih (List.nodup_cons.mp hr).2
  | @cons₂ l₁ r₂ a h ih =>
    have ha : a ∉ r₂ := (List.nodup_cons.mp hr).1
    have hd : (decide (a ∈ a :: l₁)) = true := by
      simp
    rw [List.filter_cons, hd, if_pos rfl]
    have hcongr : ∀ x ∈ r₂,
        (decide (x ∈ a :: l₁)) = (decide (x ∈ l₁)) := by
      intro x hx
      have hxa : ¬(x = a) := fun he => ha (he ▸ hx)
      simp [List.mem_cons, hxa]
    rw [List.filter_congr hcongr, ih (List.nodup_cons.mp hr).2]

theorem filter_filter_of_imp {l : List Nat} {p q : Nat → Bool}
    (himp : ∀ i, q i = true → p i = true) :
    (l.filter p).filter q = l.filter q := by
  induction l with
  | nil => rfl
  | cons a l ih =>
    by_cases hp : p a = true
    · by_cases hq : q a = true
      · rw [List.filter_cons, hp, if_pos rfl, List.filter_cons, hq, if_pos rfl,
          List.filter_cons, hq, if_pos rfl, ih]
      · have hq' : q a = false := by simpa using hq
        rw [List.filter_cons, hp, if_pos rfl, List.filter_cons, hq',
          if_neg Bool.false_ne_true, List.filter_cons, hq',
          if_neg Bool.false_ne_true, ih]
    · have hp' : p a = false := by simpa using hp
      have hq' : q a = false := by
        cases hqa : q a
        · rfl
        · exact absurd (himp a hqa) hp
      rw [List.filter_cons, hp', if_neg Bool.false_ne_true, List.filter_cons,
        hq', if_neg Bool.false_ne_true, ih]

/-! ### Structure of the diff series -/

theorem map_fst_name_pairs (l : List (Nat × Inductee)) :
    (l.map (fun p => ((p.1, p.2.name) : Nat × String))).map Prod.fst
      = l.map Prod.fst := by
  rw [List.map_map]
  rfl

theorem missing_from_fst_sublist (fame : List Inductee) (lst : List String) :
    ((missing_from fame lst).map Prod.fst).Sublist (List.range fame.length) := by
  show ((((fame.enum.filter
      (fun p => !(decide (p.2.name ∈ lst)) && !(decide (p.2.category ∈ lst)))).filter
        (fun p => decide (p.2.category = "Player"))).map
      (fun p => ((p.1, p.2.name) : Nat × String))).map Prod.fst).Sublist
    (List.range fame.length)
  rw [map_fst_name_pairs, ← List.enum_map_fst fame]
  exact List.Sublist.map Prod.fst
    ((List.filter_sublist _).trans (List.filter_sublist _))

theorem any_fst_eq_mem (ps : List (Nat × String)) (i : Nat) :
    ps.any (fun p => p.1 == i) = decide (i ∈ ps.map Prod.fst) := by
  by_cases hm : i ∈ ps.map Prod.fst
  · have h1 : ps.any (fun p => p.1 == i) = true := by
      rw [List.any_eq_true]
      rcases List.mem_map.mp hm with ⟨p, hp, he⟩
      exact ⟨p, hp, by simp [he]⟩
    simp [h1, hm]
  · have h1 : ps.any (fun p => p.1 == i) = false := by
      rw [List.any_eq_false]
      intro p hp
      simp only [beq_iff_eq]
      rintro rfl
      exact hm (List.mem_map.mpr ⟨p, hp, rfl⟩)
    simp [h1, hm]

theorem filterMap_lookup_of_filter (n : Nat) (ps : List (Nat × String))
    (p : Nat → Bool) (hsub : (ps.map Prod.fst).Sublist (List.range n))
    (himp : ∀ i, decide (i ∈ ps.map Prod.fst) = true → p i = true) :
    (((List.range n).filter p).map (fun i => ps.lookup i)).filterMap id
      = ps.map Prod.snd := by
  have hnodup : (ps.map Prod.fst).Nodup := hsub.nodup (List.nodup_range n)
  rw [List.filterMap_map]
  show ((List.range n).filter p).filterMap (fun i => ps.lookup i)
    = ps.map Prod.snd
  rw [filterMap_lookup_filter ps, filter_filter_of_imp himp,
    filter_mem_of_sublist hsub (List.nodup_range n)]
  exact filterMap_lookup_fst ps hnodup

theorem player_dataset_filterMap (fame : List Inductee) (players : List PlayerRow)
    (stats : List StatsRow) :
    (missing_hall_of_fame fame players stats).player_dataset.filterMap id
      = no_players fame players := by
  show (((List.range fame.length).filter
      (fun i => (no_players_idx fame players).any (fun p => p.1 == i)
        || (no_stats_idx fame stats).any (fun p => p.1 == i))).map
      (fun i => (no_players_idx fame players).lookup i)).filterMap id
    = no_players fame players
  exact filterMap_lookup_of_filter fame.length _ _
    (missing_from_fst_sublist fame _)
    (fun i hi => by rw [any_fst_eq_mem, hi, Bool.true_or])

theorem stats_dataset_filterMap (fame : List Inductee) (players : List PlayerRow)
    (stats : List StatsRow) :
    (missing_hall_of_fame fame players stats).stats_dataset.filterMap id
      = no_stats fame stats := by
  show (((List.range fame.length).filter
      (fun i => (no_players_idx fame players).any (fun p => p.1 == i)
        || (no_stats_idx fame stats).any (fun p => p.1 == i))).map
      (fun i => (no_stats_idx fame stats).lookup i)).filterMap id
    = no_stats fame stats
  exact filterMap_lookup_of_filter fame.length _ _
    (missing_from_fst_sublist fame _)
    (fun i hi => by rw [any_fst_eq_mem, any_fst_eq_mem, hi, Bool.or_true])

/-! ### Shape of the missing_hall_of_fame table (C9) -/

/-- C9 counterexample: the combination step of `missing_hall_of_fame` is not
the positional padding the spec describes.  With inductees A, B, C (all
`"Player"`), a biography table containing A and B, and a stats table
containing only C, the diff sequences are `["C"]` and `["A", "B"]`; the
spec's padding construction would give the 2-row table
`([C, –], [A, B])`, but `pd.concat(..., axis=1, join='outer')` aligns on the
originating fame row index and yields the 3-row table
`([–, –, C], [A, B, –])`. -/
theorem missing_padding_counterexample :
    missing_hall_of_fame fame_c9 players_c9 stats_c9
      ≠ missing_table_padded (no_players fame_c9 players_c9)
          (no_stats fame_c9 stats_c9) := by
  decide

/-- C9 (amended): `missing_hall_of_fame` returns a two-column table whose
columns are named `player_dataset` and `stats_dataset` in that fixed order
(the fields of `MissingTable`); the two result sequences are combined by an
outer join on the originating inductee row — one output row per fame row
present in either sequence, in fame order, with a missing entry where a
sequence has no value at that row — so both columns have equal length, and
the non-missing entries of each column, read top to bottom, are exactly the
corresponding result sequence in its natural order. -/
theorem missing_hall_of_fame_shape (fame : List Inductee)
    (players : List PlayerRow) (stats : List StatsRow) :
    (missing_hall_of_fame fame players stats).player_dataset.length
      = (missing_hall_of_fame fame players stats).stats_dataset.length
    ∧ (missing_hall_of_fame fame players stats).player_dataset.filterMap id
      = no_players fame players
    ∧ (missing_hall_of_fame fame players stats).stats_dataset.filterMap id
      = no_stats fame stats := by
  refine ⟨?_, player_dataset_filterMap fame players stats,
    stats_dataset_filterMap fame players stats⟩
  show (((List.range fame.length).filter _).map
      (fun i => (no_players_idx fame players).lookup i)).length
    = (((List.range fame.length).filter _).map
      (fun i => (no_stats_idx fame stats).lookup i)).length
  rw [List.length_map, List.length_map]

/-! ### Membership characterizations (C1) -/

theorem mem_filter_players_iff (fame : List Inductee) (n : String) :
    n ∈ filter_players fame
      ↔ ∃ r ∈ fame, r.category = "Player" ∧ r.name = n := by
  simp only [filter_players, List.mem_map, List.mem_filter, decide_eq_true_eq]
  constructor
  · rintro ⟨r, ⟨hr, hcat⟩, rfl⟩
    exact ⟨r, hr, hcat, rfl⟩
  · rintro ⟨r, hr, hcat, rfl⟩
    exact ⟨r, ⟨hr, hcat⟩, rfl⟩

theorem mem_missing_from_iff (fame : List Inductee) (lst : List String)
    (n : String) :
    n ∈ (missing_from fame lst).map (fun p => p.2)
      ↔ ∃ r ∈ fame, r.name = n ∧ r.category = "Player"
          ∧ r.name ∉ lst ∧ r.category ∉ lst := by
  simp only [missing_from, List.map_map, List.mem_map, List.mem_filter,
    Function.comp, Bool.and_eq_true, Bool.not_eq_true',
    decide_eq_false_iff_not, decide_eq_true_eq]
  constructor
  · rintro ⟨p, ⟨⟨hpe, hmask⟩, hcat⟩, rfl⟩
    exact ⟨p.2, snd_mem_of_mem_enum hpe, rfl, hcat, hmask.1, hmask.2⟩
  · rintro ⟨r, hr, rfl, hcat, h1, h2⟩
    obtain ⟨i, hi⟩ := mem_enum_of_mem hr
    exact ⟨(i, r), ⟨⟨hi, ⟨h1, h2⟩⟩, hcat⟩, rfl⟩

theorem mem_players_fame_names_iff (fame : List Inductee)
    (players : List PlayerRow) (x : String) :
    x ∈ players_fame_names fame players
      ↔ (x ∈ filter_players fame
          ∧ x ∈ players.filterMap (fun r => r.player)) := by
  simp only [players_fame_names, filter_to_fame, List.mem_filterMap,
    List.mem_filter]
  constructor
  · rintro ⟨r, ⟨hr, hcell⟩, hp⟩
    rw [hp] at hcell
    replace hcell : x ∈ filter_players fame := by
      simpa [cellIn] using hcell
    exact ⟨hcell, ⟨r, hr, hp⟩⟩
  · rintro ⟨hfp, r, hr, hp⟩
    refine ⟨r, ⟨hr, ?_⟩, hp⟩
    rw [hp]
    simpa [cellIn] using hfp

theorem mem_stats_player_unique_iff (stats : List StatsRow) (x : String) :
    x ∈ stats_player_unique stats
      ↔ x ∈ stats.filterMap (fun r => r.player) := by
  simp [stats_player_unique, List.mem_dedup]

/-- C1 counterexample: the claimed equivalence fails when a player is
literally named `"Player"`.  With inductee set `{(Bob, Player)}` and a stats
table whose only player name is the string `"Player"`, Bob is a
`"Player"`-category inductee absent from the stats names, yet the diff is
empty: `fame.isin` masks the *category* cell `"Player"` (it is in the name
list), so `dropna()` discards the row. -/
theorem missing_names_iff_counterexample :
    ¬(∀ n, n ∈ no_stats fame_c1 stats_c1
        ↔ (n ∈ filter_players fame_c1
            ∧ n ∉ stats_c1.filterMap (fun r => r.player))) := by
  intro h
  have hb := (h "Bob").mpr (by decide)
  exact absurd hb (by decide)

/-- C1 (amended): provided the literal string `"Player"` does not occur among
the player names of the target table, a name appears in the diff result if
and only if it is in the inductee set restricted to category `"Player"` and
does not appear in the target table's player-name column.  (The biography
diff compares against the name column of the fame-filtered view
`players_fame`; for inductee names of category `"Player"` this membership
coincides with membership in the biography name column.) -/
theorem missing_names_iff (fame : List Inductee) (players : List PlayerRow)
    (stats : List StatsRow)
    (hP : "Player" ∉ players.filterMap (fun r => r.player))
    (hS : "Player" ∉ stats.filterMap (fun r => r.player)) :
    (∀ n, n ∈ no_players fame players
        ↔ (n ∈ filter_players fame
            ∧ n ∉ players.filterMap (fun r => r.player)))
    ∧ (∀ n, n ∈ no_stats fame stats
        ↔ (n ∈ filter_players fame
            ∧ n ∉ stats.filterMap (fun r => r.player))) := by
  constructor
  · intro n
    rw [show no_players fame players
        = (missing_from fame (players_fame_names fame players)).map
            (fun p => p.2) from rfl,
      mem_missing_from_iff]
    constructor
    · rintro ⟨r, hr, rfl, hcat, h1, -⟩
      have hfp : r.name ∈ filter_players fame :=
        (mem_filter_players_iff fame r.name).mpr ⟨r, hr, hcat, rfl⟩
      refine ⟨hfp, fun hmem => ?_⟩
      exact h1 ((mem_players_fame_names_iff fame players r.name).mpr
        ⟨hfp, hmem⟩)
    · rintro ⟨hfp, hnot⟩
      obtain ⟨r, hr, hcat, rfl⟩ := (mem_filter_players_iff fame n).mp hfp
      refine ⟨r, hr, rfl, hcat, ?_, ?_⟩
      · intro hmem
        exact hnot ((mem_players_fame_names_iff fame players r.name).mp hmem).2
      · rw [hcat]
        intro hmem
        exact hP ((mem_players_fame_names_iff fame players "Player").mp hmem).2
  · intro n
    rw [show no_stats fame stats
        = (missing_from fame (stats_player_unique stats)).map
            (fun p => p.2) from rfl,
      mem_missing_from_iff]
    constructor
    · rintro ⟨r, hr, rfl, hcat, h1, -⟩
      have hfp : r.name ∈ filter_players fame :=
        (mem_filter_players_iff fame r.name).mpr ⟨r, hr, hcat, rfl⟩
      refine ⟨hfp, fun hmem => ?_⟩
      exact h1 ((mem_stats_player_unique_iff stats r.name).mpr hmem)
    · rintro ⟨hfp, hnot⟩
      obtain ⟨r, hr, hcat, rfl⟩ := (mem_filter_players_iff fame n).mp hfp
      refine ⟨r, hr, rfl, hcat, ?_, ?_⟩
      · intro hmem
        exact hnot ((mem_stats_player_unique_iff stats r.name).mp hmem)
      · rw [hcat]
        intro hmem
        exact hS ((mem_stats_player_unique_iff stats "Player").mp hmem)

/-- C1 witness: a concrete instance with the hypotheses discharged — Bob is
a missing `"Player"`-category inductee and indeed appears in the diff. -/
theorem missing_names_iff_witness :
    ("Player" ∉ players_w.filterMap (fun r => r.player)
      ∧ "Player" ∉ ([] : List StatsRow).filterMap (fun r => r.player))
    ∧ "Bob" ∈ no_players fame_w players_w :=
  ⟨⟨by decide, by decide⟩,
    ((missing_names_iff fame_w players_w [] (by decide) (by decide)).1
      "Bob").mpr (by decide)⟩

/-! ### The Dan Issel correction scenario (C8) -/

theorem no_players_sub_filter_players (fame : List Inductee)
    (players : List PlayerRow) (n : String) (h : n ∈ no_players fame players) :
    n ∈ filter_players fame := by
  rw [show no_players fame players
      = (missing_from fame (players_fame_names fame players)).map
          (fun p => p.2) from rfl, mem_missing_from_iff] at h
  obtain ⟨r, hr, rfl, hcat, -, -⟩ := h
  exact (mem_filter_players_iff fame r.name).mpr ⟨r, hr, hcat, rfl⟩

theorem no_stats_sub_filter_players (fame : List Inductee)
    (stats : List StatsRow) (n : String) (h : n ∈ no_stats fame stats) :
    n ∈ filter_players fame := by
  rw [show no_stats fame stats
      = (missing_from fame (stats_player_unique stats)).map
          (fun p => p.2) from rfl, mem_missing_from_iff] at h
  obtain ⟨r, hr, rfl, hcat, -, -⟩ := h
  exact (mem_filter_players_iff fame r.name).mpr ⟨r, hr, hcat, rfl⟩

theorem all_avoid_col (bad : String) (col : List (Option String))
    (h : ∀ nm ∈ col.filterMap id, nm ≠ bad) :
    col.all (cell_avoid bad) = true := by
  rw [List.all_eq_true]
  intro c hc
  cases c with
  | none => rfl
  | some s =>
    have hs : s ∈ col.filterMap id := List.mem_filterMap.mpr ⟨some s, hc, rfl⟩
    show (!(s == bad)) = true
    simp [h s hs]

theorem all_avoid_filter_to_fame (bad : String) (names : List String)
    (l : List PlayerRow) (h : ∀ nm ∈ names, nm ≠ bad) :
    (filter_to_fame l names).all (fun r => cell_avoid bad r.player) = true := by
  rw [List.all_eq_true]
  intro r hr
  have hc := (List.mem_filter.mp hr).2
  cases hp : r.player with
  | none => simp [cell_avoid, hp]
  | some s =>
    rw [hp] at hc
    have hs : s ∈ names := by simpa [cellIn] using hc
    simp [cell_avoid, hp, h s hs]

theorem all_avoid_stats_filter_to_fame (bad : String) (names : List String)
    (l : List StatsRow) (h : ∀ nm ∈ names, nm ≠ bad) :
    (stats_filter_to_fame l names).all
      (fun r => cell_avoid bad r.player) = true := by
  rw [List.all_eq_true]
  intro r hr
  have hc := (List.mem_filter.mp hr).2
  cases hp : r.player with
  | none => simp [cell_avoid, hp]
  | some s =>
    rw [hp] at hc
    have hs : s ∈ names := by simpa [cellIn] using hc
    simp [cell_avoid, hp, h s hs]

/-- C8: Given the inductee set
`{("Dan Issell", "Player"), ("Red Auerbach", "Coach")}`, after the Correction
Layer runs the stored name for the first entry is `"Dan Issel"`, and the
defective spelling `"Dan Issell"` never appears in any downstream table: not
among the names of the fame-filtered views and not in either column of the
`missing_hall_of_fame` output. -/
theorem dan_issel_correction (players : List PlayerRow) (stats : List StatsRow) :
    (statistics_init (.ok fame_scenario) [] players stats).fame.map
        (fun r => r.name) = ["Dan Issel", "Red Auerbach"]
    ∧ (statistics_init (.ok fame_scenario) [] players stats).players_fame.all
        (fun r => cell_avoid "Dan Issell" r.player) = true
    ∧ (statistics_init (.ok fame_scenario) [] players stats).stats_fame.all
        (fun r => cell_avoid "Dan Issell" r.player) = true
    ∧ (missing_hall_of_fame
        (statistics_init (.ok fame_scenario) [] players stats).fame
        (statistics_init (.ok fame_scenario) [] players stats).players
        (statistics_init (.ok fame_scenario) [] players
          stats).stats).player_dataset.all (cell_avoid "Dan Issell") = true
    ∧ (missing_hall_of_fame
        (statistics_init (.ok fame_scenario) [] players stats).fame
        (statistics_init (.ok fame_scenario) [] players stats).players
        (statistics_init (.ok fame_scenario) [] players
          stats).stats).stats_dataset.all (cell_avoid "Dan Issell") = true := by
  refine ⟨rfl, ?_, ?_, ?_, ?_⟩
  · show (filter_to_fame (bio_load players) ["Dan Issel"]).all
        (fun r => cell_avoid "Dan Issell" r.player) = true
    exact all_avoid_filter_to_fame _ _ _ (by decide)
  · show (stats_filter_to_fame (stats_load stats) ["Dan Issel"]).all
        (fun r => cell_avoid "Dan Issell" r.player) = true
    exact all_avoid_stats_filter_to_fame _ _ _ (by decide)
  · apply all_avoid_col
    intro nm hnm
    rw [player_dataset_filterMap] at hnm
    have h1 := no_players_sub_filter_players _ _ nm hnm
    have h2 : nm ∈ (["Dan Issel"] : List String) := h1
    rw [List.mem_singleton] at h2
    subst h2
    decide
  · apply all_avoid_col
    intro nm hnm
    rw [stats_dataset_filterMap] at hnm
    have h1 := no_stats_sub_filter_players _ _ nm hnm
    have h2 : nm ∈ (["Dan Issel"] : List String) := h1
    rw [List.mem_singleton] at h2
    subst h2
    decide
